import Mathlib

/-!
Verification of the ethtool netlink client library (`github.com/mdlayher/ethtool`).

The development shallowly embeds the Linux client (`client_linux.go` and its
revisions) over a structured model of netlink attributes.  The raw TLV
encoder/decoder of package `netlink` is the external engine (out of scope per
the spec), so attributes are modelled as structured values: a leaf attribute is
a tag plus a raw byte payload, and a top-level attribute of a message either
carries raw bytes or a nested list of leaf attributes (the library nests at
most one level deep).  Scalars follow the netlink conventions: a `Uint32`
payload is exactly 4 native-endian (little-endian) bytes, a `Uint8` payload is
one byte.
-/

namespace Ethtool

/-! ### ethtool and netlink constants (golang.org/x/sys/unix) -/

def ETHTOOL_A_HEADER_DEV_INDEX : Nat := 1
def ETHTOOL_A_HEADER_DEV_NAME : Nat := 2
def ETHTOOL_A_HEADER_FLAGS : Nat := 3
def ETHTOOL_FLAG_COMPACT_BITSETS : Nat := 1
def ETHTOOL_A_LINKINFO_HEADER : Nat := 1
def ETHTOOL_A_LINKINFO_PORT : Nat := 2
def ETHTOOL_A_LINKMODES_HEADER : Nat := 1
def ETHTOOL_A_LINKMODES_OURS : Nat := 3
def ETHTOOL_A_LINKMODES_PEER : Nat := 4
def ETHTOOL_A_LINKMODES_SPEED : Nat := 5
def ETHTOOL_A_LINKMODES_DUPLEX : Nat := 6
def ETHTOOL_A_WOL_HEADER : Nat := 1
def ETHTOOL_A_WOL_MODES : Nat := 2
def ETHTOOL_A_WOL_SOPASS : Nat := 3
def ETHTOOL_A_BITSET_NOMASK : Nat := 1
def ETHTOOL_A_BITSET_SIZE : Nat := 2
def ETHTOOL_A_BITSET_VALUE : Nat := 4
def ETHTOOL_A_BITSET_MASK : Nat := 5
def ETHTOOL_MSG_LINKINFO_GET : Nat := 2
def ETHTOOL_MSG_LINKMODES_GET : Nat := 4
def ETHTOOL_MSG_WOL_GET : Nat := 9
def ETHTOOL_MSG_WOL_SET : Nat := 10

/-- Linux errno for "operation not permitted". -/
def EPERM : Nat := 1
/-- Linux errno for "no such device". -/
def ENODEV : Nat := 19
/-- Linux errno for "operation not supported". -/
def EOPNOTSUPP : Nat := 95

/-- `netlink.Request` header flag. -/
def netlinkRequest : Nat := 1
/-- `netlink.Dump` header flag (`netlink.Root ||| netlink.Match`). -/
def netlinkDump : Nat := 0x300

/-! ### Bytes and native-endian 32-bit words

`nlenc.Uint32` reads a 4-byte chunk as a native (little-endian on the
supported hosts) machine word; `nlenc.PutUint32` is its inverse. -/

/-- Little-endian 32-bit word value of (the first four of) the bytes `b`. -/
def leU32 (b : List Nat) : Nat :=
  b.getD 0 0 + 256 * b.getD 1 0 + 65536 * b.getD 2 0 + 16777216 * b.getD 3 0

/-- The four little-endian bytes of the 32-bit word `n` (Go `nlenc.PutUint32`). -/
def u32Bytes (n : Nat) : List Nat :=
  [n % 256, n / 256 % 256, n / 65536 % 256, n / 16777216 % 256]

/-- Go's `uint32(x)` conversion applied to a (signed, arbitrary-width in the
model) `int` value: two's-complement truncation to 32 bits. -/
def u32OfInt (x : Int) : Nat := (x % 4294967296).toNat

/-! ### The structured attribute model -/

/-- A leaf netlink attribute: a type tag and a raw byte payload. -/
structure LeafAttr where
  tag : Nat
  data : List Nat
deriving DecidableEq, Repr

/-- Payload of a top-level attribute: either raw bytes or a nested attribute
list (the library nests at most one level of attributes below the top level,
so nested payloads carry leaf attributes). -/
inductive TopPayload where
  | leaf (data : List Nat)
  | nested (attrs : List LeafAttr)
deriving DecidableEq, Repr

/-- A top-level attribute of a genetlink message body. -/
structure TopAttr where
  tag : Nat
  payload : TopPayload
deriving DecidableEq, Repr

/-- A decoded genetlink response message body: its top-level attributes. -/
def Message : Type := List TopAttr

instance : DecidableEq Message := by
  unfold Message
  infer_instance

/-! ### Scalar decoding primitives (netlink AttributeDecoder semantics) -/

/-- `AttributeDecoder.Uint32`: the payload must be exactly 4 bytes, decoded as
a native-endian word; a wrong length is a (sticky) decoder error. -/
def dUint32 (b : List Nat) : Except String Nat :=
  if b.length = 4 then .ok (leU32 b) else .error "netlink: attribute is not a uint32"

/-- `AttributeDecoder.Uint8`: the payload must be exactly 1 byte. -/
def dUint8 (b : List Nat) : Except String Nat :=
  if b.length = 1 then .ok (b.getD 0 0) else .error "netlink: attribute is not a uint8"

/-- `AttributeDecoder.String`: bytes with the trailing NUL removed; total. -/
def bytesToString (b : List Nat) : String :=
  ((b.takeWhile (fun c => c ≠ 0)).map Char.ofNat).asString

/-- `AttributeEncoder.String`: the bytes of a Go string. -/
def strBytes (s : String) : List Nat :=
  s.data.map Char.toNat

/-! ### The compact bitset decoder

`parseBitset` is translated from `parseBitset` (part_003 lines 359-372):
the byte payload must hold exactly as many 4-byte words as were preallocated
from `SIZE`, each read native-endian. -/

/-- Translated from `parseBitset`: refuse unless `len(b)/4` equals the
preallocated word count `n`; otherwise read `n` native-endian words. -/
def parseBitset (n : Nat) (b : List Nat) : Except String (List Nat) :=
  if b.length / 4 ≠ n then
    .error "ethtool: cannot store bytes in uint32 slice of mismatched length"
  else
    .ok ((List.range n).map (fun i => leU32 ((b.drop (4 * i)).take 4)))

/-- Decoder state of the compact-bitset walk: the value words, the mask words
and whether the mask is to be applied (`NOMASK` absent so far). -/
structure BitsetState where
  values : List Nat
  mask : List Nat
  doMask : Bool
deriving DecidableEq, Repr

/-- One attribute step of the compact-bitset walk (the `switch` body shared by
the inline decoder in `parseAdvertisedLinkModes`, part_003 lines 295-313, and
the factored-out `newBitset`).  The word count `n := (ad.Uint32() + 31) / 32`
(part_003 line 303) is computed in Go uint32 arithmetic: the addition
`SIZE + 31` wraps modulo `2^32`, so the top 31 `SIZE` values allocate 0
words. -/
def bitsetStep (st : BitsetState) (a : LeafAttr) : Except String BitsetState :=
  if a.tag = ETHTOOL_A_BITSET_NOMASK then
    .ok { st with doMask := false }
  else if a.tag = ETHTOOL_A_BITSET_SIZE then
    match dUint32 a.data with
    | .error e => .error e
    | .ok sz =>
      .ok { st with
        values := List.replicate ((sz + 31) % 4294967296 / 32) 0
        mask := if st.doMask then List.replicate ((sz + 31) % 4294967296 / 32) 0
          else st.mask }
  else if a.tag = ETHTOOL_A_BITSET_VALUE then
    match parseBitset st.values.length a.data with
    | .error e => .error e
    | .ok ws => .ok { st with values := ws }
  else if a.tag = ETHTOOL_A_BITSET_MASK then
    match parseBitset st.mask.length a.data with
    | .error e => .error e
    | .ok ws => .ok { st with mask := ws }
  else
    .ok st

/-- The attribute walk of the compact-bitset decoder (errors are sticky: the
walk stops at the first failing attribute). -/
def newBitsetLoop (st : BitsetState) : List LeafAttr → Except String BitsetState
  | [] => .ok st
  | a :: rest =>
    match bitsetStep st a with
    | .error e => .error e
    | .ok st' => newBitsetLoop st' rest

/-- Modelled from the spec: the compact bitset decoder `newBitset` (file
`bitset.go`, absent from the provided sources; only its callers are present).
Per spec §4.1 it reads `SIZE`, allocates `(SIZE+31)/32` words for `VALUE`
(and `MASK` when masking applies) — the addition performed in wrapping uint32
arithmetic as in the source — fills them from 4-byte native-endian chunks,
and ANDs value words with mask words unless `NOMASK` was seen.  The algorithm
coincides with the inline compact-bitset decoding of
`parseAdvertisedLinkModes` (part_003 lines 285-354), from which the steps
above are translated. -/
def newBitset (attrs : List LeafAttr) : Except String (List Nat) :=
  match newBitsetLoop ⟨[], [], true⟩ attrs with
  | .error e => .error e
  | .ok st =>
    if st.doMask then .ok (List.zipWith (· &&& ·) st.values st.mask)
    else .ok st.values

/-! ### Domain records

Go `int` fields are modelled as `Int`; the Go values used by this library
always fit 64 bits, and none of the proved properties depend on 64-bit
wraparound, so `Int` is a faithful carrier. -/

/-- The `(index, name)` interface selector: `Request` in `client.go`, renamed
`Interface` in the part_001 revision; the fields are identical. -/
structure Interface where
  Index : Int
  Name : String
deriving DecidableEq, Repr

instance : Inhabited Interface := ⟨⟨0, ""⟩⟩

/-- `LinkInfo` (client.go): selector fields plus the `Port` enum (a Go int). -/
structure LinkInfo where
  Index : Int
  Name : String
  Port : Int
deriving DecidableEq, Repr

instance : Inhabited LinkInfo := ⟨⟨0, "", 0⟩⟩

/-- One named capability bit (`AdvertisedLinkMode` in client.go). -/
structure AdvertisedLinkMode where
  Index : Int
  Name : String
deriving DecidableEq, Repr

/-- `LinkMode` (client.go). -/
structure LinkMode where
  Index : Int
  Name : String
  SpeedMegabits : Int
  Ours : List AdvertisedLinkMode
  Peer : List AdvertisedLinkMode
  Duplex : Int
deriving DecidableEq, Repr

instance : Inhabited LinkMode := ⟨⟨0, "", 0, [], [], 0⟩⟩

/-- `WakeOnLAN` (part_001 shape): selector plus the `Modes` bitmask.
Modelled from the spec: the `WOLMode` type itself (file `ethtool.go`, absent
from the sources) is a bitmask of named bit flags carried in a Go `int`; the
encoder in part_001 line 257 converts it with `uint32(wol.Modes)`, so the
field is wider than the 32-bit wire word. -/
structure WakeOnLAN where
  Interface : Interface
  Modes : Int
deriving DecidableEq, Repr

instance : Inhabited WakeOnLAN := ⟨default, 0⟩

/-- One row of the static link-mode table (`linkModes` in the absent file
`linkmodes.go`): a bit index and its name.  The decoders take the table as a
parameter; the real table is a dense immutable array.  A Go lookup past the
end of the table would fault; the model totalizes it with a default row, and
every theorem whose meaning depends on a lookup carries an in-range
hypothesis. -/
structure LinkModeEntry where
  bit : Nat
  str : String
deriving DecidableEq, Repr

instance : Inhabited LinkModeEntry := ⟨⟨0, ""⟩⟩

/-! ### Extracting set bits from decoded words

Translated from `parseAdvertisedLinkModes` (client_linux.go lines 340-374 /
part_003 lines 327-350): for each word `v` at index `i`, skip it when zero,
otherwise test each of its 32 bits; bit `j` set resolves table entry
`32*i + j`. -/

/-- The inner `for j := 0; j < 32` loop over one word. -/
def wordBits (table : List LinkModeEntry) (i v : Nat) : List AdvertisedLinkMode :=
  (List.range 32).filterMap fun j =>
    if v &&& (1 <<< j) ≠ 0 then
      some ⟨((table.getD (32 * i + j) default).bit : Int), (table.getD (32 * i + j) default).str⟩
    else none

/-- The outer `for i, v := range values` loop, with the zero-word skip. -/
def almLoop (table : List LinkModeEntry) (i : Nat) : List Nat → List AdvertisedLinkMode
  | [] => []
  | v :: vs => (if v = 0 then [] else wordBits table i v) ++ almLoop table (i + 1) vs

/-- The same loop without the zero-word shortcut (spec-side comparison point
for the claim that skipping zero words never changes the decode). -/
def almLoopNoSkip (table : List LinkModeEntry) (i : Nat) : List Nat → List AdvertisedLinkMode
  | [] => []
  | v :: vs => wordBits table i v ++ almLoopNoSkip table (i + 1) vs

/-- Translated from `parseAdvertisedLinkModes`: decode the compact bitset from
the nested attributes, then emit one `AdvertisedLinkMode` per set bit. -/
def parseAdvertisedLinkModes (table : List LinkModeEntry) (attrs : List LeafAttr) :
    Except String (List AdvertisedLinkMode) :=
  match newBitset attrs with
  | .error e => .error e
  | .ok values => .ok (almLoop table 0 values)

/-! ### Wake-on-LAN modes decoder -/

/-- Outcome of an operation that may return, fail with an error, or abort the
program: Go panics are modelled as the `panicked` constructor so they stay
distinct from returned errors. -/
inductive Result (α : Type) where
  | ok (a : α)
  | err (e : String)
  | panicked (msg : String)
deriving DecidableEq, Repr

/-- The Go runtime fault raised by `values[0]` on an empty slice. -/
def indexOutOfRangeMsg : String := "runtime error: index out of range [0] with length 0"

/-- The explicit `panicf` message of `parseWakeOnLANModes`. -/
def tooManyWolWordsMsg (l : Nat) : String :=
  "ethtool: too many Wake-on-LAN mode uint32s in bitset: " ++ toString l

/-- Translated from `parseWakeOnLANModes` (client_linux.go lines 410-427 /
part_001 lines 540-557): decode the compact bitset; `panicf` when more than
one word is present; then read `values[0]` (a runtime fault when the bitset
decoded to zero words) as the `WOLMode` bitmask. -/
def parseWakeOnLANModes (attrs : List LeafAttr) : Result Nat :=
  match newBitset attrs with
  | .error e => .err e
  | .ok values =>
    if values.length > 1 then .panicked (tooManyWolWordsMsg values.length)
    else
      match values with
      | [] => .panicked indexOutOfRangeMsg
      | v :: _ => .ok v

/-! ### Response message walkers -/

/-- One step of `parseHeader` / `parseInterface`: fill the selector fields
from the nested header attributes, ignoring unknown tags. -/
def interfaceStep (ifi : Interface) (a : LeafAttr) : Except String Interface :=
  if a.tag = ETHTOOL_A_HEADER_DEV_INDEX then
    match dUint32 a.data with
    | .error e => .error e
    | .ok n => .ok { ifi with Index := (n : Int) }
  else if a.tag = ETHTOOL_A_HEADER_DEV_NAME then
    .ok { ifi with Name := bytesToString a.data }
  else
    .ok ifi

/-- Translated from `parseHeader` (client_linux.go lines 431-443; renamed
`parseInterface` in part_001): walk the nested header attributes. -/
def parseInterfaceAttrs (ifi : Interface) (attrs : List LeafAttr) : Except String Interface :=
  attrs.foldlM interfaceStep ifi

/-- One step of the `parseLinkInfo` per-message walk (client_linux.go lines
283-290): the nested header and the `PORT` uint8, unknown tags ignored. -/
def linkInfoStep (li : LinkInfo) (a : TopAttr) : Except String LinkInfo :=
  if a.tag = ETHTOOL_A_LINKINFO_HEADER then
    match a.payload with
    | .nested attrs =>
      match parseInterfaceAttrs ⟨li.Index, li.Name⟩ attrs with
      | .error e => .error e
      | .ok ifi => .ok { li with Index := ifi.Index, Name := ifi.Name }
    | .leaf _ => .error "netlink: attribute is not nested"
  else if a.tag = ETHTOOL_A_LINKINFO_PORT then
    match a.payload with
    | .leaf b =>
      match dUint8 b with
      | .error e => .error e
      | .ok n => .ok { li with Port := (n : Int) }
    | .nested _ => .error "netlink: attribute is not a uint8"
  else
    .ok li

/-- Decode one message into a fresh `LinkInfo`. -/
def parseLinkInfoMsg (m : Message) : Except String LinkInfo :=
  m.foldlM linkInfoStep default

/-- Translated from `parseLinkInfo` (client_linux.go lines 274-300): one
record per response message, stopping at the first decode error. -/
def parseLinkInfo : List Message → Except String (List LinkInfo)
  | [] => .ok []
  | m :: rest =>
    match parseLinkInfoMsg m with
    | .error e => .error e
    | .ok li =>
      match parseLinkInfo rest with
      | .error e => .error e
      | .ok lis => .ok (li :: lis)

/-- One step of the `parseLinkModes` per-message walk (client_linux.go lines
313-326): header, the two compact-bitset capability sets, speed and duplex. -/
def linkModeStep (table : List LinkModeEntry) (lm : LinkMode) (a : TopAttr) :
    Except String LinkMode :=
  if a.tag = ETHTOOL_A_LINKMODES_HEADER then
    match a.payload with
    | .nested attrs =>
      match parseInterfaceAttrs ⟨lm.Index, lm.Name⟩ attrs with
      | .error e => .error e
      | .ok ifi => .ok { lm with Index := ifi.Index, Name := ifi.Name }
    | .leaf _ => .error "netlink: attribute is not nested"
  else if a.tag = ETHTOOL_A_LINKMODES_OURS then
    match a.payload with
    | .nested attrs =>
      match parseAdvertisedLinkModes table attrs with
      | .error e => .error e
      | .ok alms => .ok { lm with Ours := lm.Ours ++ alms }
    | .leaf _ => .error "netlink: attribute is not nested"
  else if a.tag = ETHTOOL_A_LINKMODES_PEER then
    match a.payload with
    | .nested attrs =>
      match parseAdvertisedLinkModes table attrs with
      | .error e => .error e
      | .ok alms => .ok { lm with Peer := lm.Peer ++ alms }
    | .leaf _ => .error "netlink: attribute is not nested"
  else if a.tag = ETHTOOL_A_LINKMODES_SPEED then
    match a.payload with
    | .leaf b =>
      match dUint32 b with
      | .error e => .error e
      | .ok n => .ok { lm with SpeedMegabits := (n : Int) }
    | .nested _ => .error "netlink: attribute is not a uint32"
  else if a.tag = ETHTOOL_A_LINKMODES_DUPLEX then
    match a.payload with
    | .leaf b =>
      match dUint8 b with
      | .error e => .error e
      | .ok n => .ok { lm with Duplex := (n : Int) }
    | .nested _ => .error "netlink: attribute is not a uint8"
  else
    .ok lm

/-- Decode one message into a fresh `LinkMode`. -/
def parseLinkModeMsg (table : List LinkModeEntry) (m : Message) : Except String LinkMode :=
  m.foldlM (linkModeStep table) default

/-- Translated from `parseLinkModes` (client_linux.go lines 304-336). -/
def parseLinkModes (table : List LinkModeEntry) : List Message → Except String (List LinkMode)
  | [] => .ok []
  | m :: rest =>
    match parseLinkModeMsg table m with
    | .error e => .error e
    | .ok lm =>
      match parseLinkModes table rest with
      | .error e => .error e
      | .ok lms => .ok (lm :: lms)

/-- The `parseWakeOnLAN` per-message walk (client_linux.go lines 387-397):
header, the compact-bitset modes (whose decoder can panic), and the
intentionally undecoded `SOPASS`; a panic aborts the whole walk. -/
def wolMsgLoop (wol : WakeOnLAN) : List TopAttr → Result WakeOnLAN
  | [] => .ok wol
  | a :: rest =>
    if a.tag = ETHTOOL_A_WOL_HEADER then
      match a.payload with
      | .nested attrs =>
        match parseInterfaceAttrs wol.Interface attrs with
        | .error e => .err e
        | .ok ifi => wolMsgLoop { wol with Interface := ifi } rest
      | .leaf _ => .err "netlink: attribute is not nested"
    else if a.tag = ETHTOOL_A_WOL_MODES then
      match a.payload with
      | .nested attrs =>
        match parseWakeOnLANModes attrs with
        | .err e => .err e
        | .panicked s => .panicked s
        | .ok v => wolMsgLoop { wol with Modes := (v : Int) } rest
      | .leaf _ => .err "netlink: attribute is not nested"
    else
      wolMsgLoop wol rest

/-- Translated from `parseWakeOnLAN` (client_linux.go lines 378-407): one
record per response message; decode errors and panics propagate. -/
def parseWakeOnLAN : List Message → Result (List WakeOnLAN)
  | [] => .ok []
  | m :: rest =>
    match wolMsgLoop default m with
    | .err e => .err e
    | .panicked s => .panicked s
    | .ok wol =>
      match parseWakeOnLAN rest with
      | .err e => .err e
      | .panicked s => .panicked s
      | .ok wols => .ok (wol :: wols)

/-! ### Errors -/

/-- The Go error values flowing through the client: raw kernel errnos from
the transport, decode errors carrying their message, and the sentinel errors
`errBadRequest`, `os.ErrNotExist` and `os.ErrPermission`. -/
inductive GoErr where
  | errno (n : Nat)
  | decodeErr (s : String)
  | badRequest
  | notExist
  | permission
deriving DecidableEq, Repr

/-- `errors.Is(err, unix.E…)`: a transport error matches an errno exactly when
it is that errno (the modelled transport reports kernel failures as plain
errnos). -/
def errIs (e : GoErr) (n : Nat) : Bool := e = .errno n

/-! ### Request construction and the dispatcher -/

/-- The leaf attributes of the request header group, translated from the
`ae.Nested(header, …)` closure in `client.get` (client_linux.go lines
209-229 / part_001 lines 283-303): the device index when positive, the device
name when non-empty, and unconditionally the compact-bitsets flag. -/
def headerLeaves (r : Interface) : List LeafAttr :=
  (if r.Index > 0 then [⟨ETHTOOL_A_HEADER_DEV_INDEX, u32Bytes (u32OfInt r.Index)⟩] else []) ++
  (if r.Name ≠ "" then [⟨ETHTOOL_A_HEADER_DEV_NAME, strBytes r.Name⟩] else []) ++
  [⟨ETHTOOL_A_HEADER_FLAGS, u32Bytes ETHTOOL_FLAG_COMPACT_BITSETS⟩]

/-- The single nested header attribute group of a read request. -/
def headerAttr (header : Nat) (r : Interface) : TopAttr :=
  ⟨header, .nested (headerLeaves r)⟩

/-- The request handed to the transport: command, header flags and encoded
attributes.  `client.execute` always ORs in `netlink.Request`. -/
structure NlRequest where
  cmd : Nat
  flags : Nat
  attrs : List TopAttr
deriving DecidableEq, Repr

/-- The request `client.get` builds for a read command. -/
def mkGetReq (header cmd flags : Nat) (r : Interface) : NlRequest :=
  ⟨cmd, netlinkRequest ||| flags, [headerAttr header r]⟩

/-- The transport engine (`genetlink.Conn.Execute` behind `client.execute`):
a function from the request to either response messages or an error. -/
def Transport : Type := NlRequest → Except GoErr (List Message)

/-- Translated from `client.get` (client_linux.go lines 192-247): reject a
non-dump request whose selector is empty before any encoding or transport
call; otherwise run the round trip and map `EOPNOTSUPP`/`ENODEV` kernel
errors to `os.ErrNotExist`, passing any other error through unchanged. -/
def clientGet (transport : Transport) (header cmd flags : Nat) (r : Interface) :
    Except GoErr (List Message) :=
  if flags &&& netlinkDump = 0 ∧ r.Index = 0 ∧ r.Name = "" then
    .error .badRequest
  else
    match transport (mkGetReq header cmd flags r) with
    | .error e =>
      .error (if errIs e EOPNOTSUPP ∨ errIs e ENODEV then .notExist else e)
    | .ok msgs => .ok msgs

/-- Outcome of a public client operation: a value, a returned error, or a
panic (`panicf`). -/
inductive OpResult (α : Type) where
  | ok (a : α)
  | err (e : GoErr)
  | panicked (msg : String)
deriving DecidableEq, Repr

/-- The `panicf` message of the targeted-cardinality check (the `%q` quoting
of the name is elided in the model). -/
def cardinalityMsg (kind : String) (r : Interface) (l : Nat) : String :=
  "ethtool: unexpected number of " ++ kind ++ " messages for request index: " ++
    toString r.Index ++ ", name: " ++ r.Name ++ ": " ++ toString l

/-- `client.linkInfo` (client_linux.go lines 99-111): shared get-and-parse. -/
def linkInfoShared (transport : Transport) (flags : Nat) (r : Interface) :
    Except GoErr (List LinkInfo) :=
  match clientGet transport ETHTOOL_A_LINKINFO_HEADER ETHTOOL_MSG_LINKINFO_GET flags r with
  | .error e => .error e
  | .ok msgs =>
    match parseLinkInfo msgs with
    | .error s => .error (.decodeErr s)
    | .ok lis => .ok lis

/-- `client.LinkInfos` (client_linux.go lines 79-81): dump, empty selector. -/
def LinkInfosOp (transport : Transport) : Except GoErr (List LinkInfo) :=
  linkInfoShared transport netlinkDump ⟨0, ""⟩

/-- `client.LinkInfo` (client_linux.go lines 84-96): targeted get with the
exactly-one-message cardinality check enforced by `panicf`. -/
def LinkInfoOp (transport : Transport) (r : Interface) : OpResult LinkInfo :=
  match linkInfoShared transport 0 r with
  | .error e => .err e
  | .ok lis =>
    if lis.length ≠ 1 then .panicked (cardinalityMsg "LinkInfo" r lis.length)
    else .ok (lis.getD 0 default)

/-- `client.linkMode` (client_linux.go lines 134-146). -/
def linkModeShared (table : List LinkModeEntry) (transport : Transport) (flags : Nat)
    (r : Interface) : Except GoErr (List LinkMode) :=
  match clientGet transport ETHTOOL_A_LINKMODES_HEADER ETHTOOL_MSG_LINKMODES_GET flags r with
  | .error e => .error e
  | .ok msgs =>
    match parseLinkModes table msgs with
    | .error s => .error (.decodeErr s)
    | .ok lms => .ok lms

/-- `client.LinkModes` (client_linux.go lines 114-116). -/
def LinkModesOp (table : List LinkModeEntry) (transport : Transport) :
    Except GoErr (List LinkMode) :=
  linkModeShared table transport netlinkDump ⟨0, ""⟩

/-- `client.LinkMode` (client_linux.go lines 119-131). -/
def LinkModeOp (table : List LinkModeEntry) (transport : Transport) (r : Interface) :
    OpResult LinkMode :=
  match linkModeShared table transport 0 r with
  | .error e => .err e
  | .ok lms =>
    if lms.length ≠ 1 then .panicked (cardinalityMsg "LinkMode" r lms.length)
    else .ok (lms.getD 0 default)

/-- `client.wakeOnLAN` (client_linux.go lines 170-188): shared get-and-parse,
additionally unwrapping a kernel `EPERM` into `os.ErrPermission`. -/
def wakeOnLANShared (transport : Transport) (flags : Nat) (r : Interface) :
    OpResult (List WakeOnLAN) :=
  match clientGet transport ETHTOOL_A_WOL_HEADER ETHTOOL_MSG_WOL_GET flags r with
  | .error e => .err (if errIs e EPERM then .permission else e)
  | .ok msgs =>
    match parseWakeOnLAN msgs with
    | .err s => .err (.decodeErr s)
    | .panicked s => .panicked s
    | .ok wols => .ok wols

/-- `client.WakeOnLANs` (client_linux.go lines 149-151). -/
def WakeOnLANsOp (transport : Transport) : OpResult (List WakeOnLAN) :=
  wakeOnLANShared transport netlinkDump ⟨0, ""⟩

/-- `client.WakeOnLAN` (client_linux.go lines 155-167). -/
def WakeOnLANOp (transport : Transport) (r : Interface) : OpResult WakeOnLAN :=
  match wakeOnLANShared transport 0 r with
  | .err e => .err e
  | .panicked s => .panicked s
  | .ok wols =>
    if wols.length ≠ 1 then .panicked (cardinalityMsg "WakeOnLAN" r wols.length)
    else .ok (wols.getD 0 default)

/-! ### Wake-on-LAN mutate-request encoding -/

/-- Translated from `WakeOnLAN.encode` (part_001 lines 248-261): the nested
`WOL_MODES` group holds a `SIZE` of 8, then the modes bitmask as a single
native-endian `uint32` word written for both `VALUE` and `MASK`. -/
def wolEncodeModes (wol : WakeOnLAN) : List LeafAttr :=
  [⟨ETHTOOL_A_BITSET_SIZE, u32Bytes 8⟩,
   ⟨ETHTOOL_A_BITSET_VALUE, u32Bytes (u32OfInt wol.Modes)⟩,
   ⟨ETHTOOL_A_BITSET_MASK, u32Bytes (u32OfInt wol.Modes)⟩]

/-- The top-level attributes `WakeOnLAN.encode` appends to a set request. -/
def wolEncode (wol : WakeOnLAN) : List TopAttr :=
  [⟨ETHTOOL_A_WOL_MODES, .nested (wolEncodeModes wol)⟩]

/-! ### Wire size of serialized leaf attributes

Netlink TLV framing (package `netlink`, the external engine): every attribute
is a 4-byte header followed by its payload padded to a 4-byte boundary.  Used
to compare the encoded wake-on-LAN modes group against the fixed 12-byte
`NLA_BITFIELD32` body the spec describes. -/

/-- Payload length rounded up to the 4-byte netlink alignment. -/
def nlaAlign (n : Nat) : Nat := (n + 3) / 4 * 4

/-- Serialized byte length of a list of leaf attributes. -/
def serializedLength (attrs : List LeafAttr) : Nat :=
  (attrs.map (fun a => 4 + nlaAlign a.data.length)).sum

/-- A `NLA_BITFIELD32` structure (part_004 lines 341-344). -/
structure Bitfield32 where
  Value : Nat
  Selector : Nat
deriving DecidableEq, Repr

/-- Translated from `parseBitfield32` (part_004 lines 347-358): exactly 12
bytes, a native-endian value word, a native-endian selector word, and 4
trailing padding bytes. -/
def parseBitfield32 (b : List Nat) : Except String Bitfield32 :=
  if b.length ≠ 12 then .error "bitfield32 must contain exactly 12 bytes"
  else .ok ⟨leU32 (b.take 4), leU32 ((b.drop 4).take 4)⟩

/-! ### Spec-side companions

Definitions below restate what the spec's words describe, for comparison with
the translated code. -/

/-- The words a compact-bitset byte array populates: `n` words, each read from
its 4-byte native-endian chunk (spec §4.1 decoding algorithm). -/
def bitsetWords (n : Nat) (b : List Nat) : List Nat :=
  (List.range n).map (fun i => leU32 ((b.drop (4 * i)).take 4))

/-- Spec-side set-bit positions of a word list, in ascending order: position
`32*i + j` for every set bit `j` of word `i`. -/
def posLoop (i : Nat) : List Nat → List Nat
  | [] => []
  | v :: vs =>
    ((List.range 32).filter (fun j => v &&& (1 <<< j) ≠ 0)).map (fun j => 32 * i + j) ++
      posLoop (i + 1) vs

/-- Resolving one bit position through the static table. -/
def resolveALM (table : List LinkModeEntry) (p : Nat) : AdvertisedLinkMode :=
  ⟨((table.getD p default).bit : Int), (table.getD p default).str⟩

/-! ### Helper lemmas -/

theorem leU32_u32Bytes (n : Nat) (h : n < 4294967296) : leU32 (u32Bytes n) = n := by
  simp only [u32Bytes, leU32, List.getD_cons_zero, List.getD_cons_succ]
  omega

theorem u32OfInt_lt (x : Int) : u32OfInt x < 4294967296 := by
  simp only [u32OfInt]
  omega

theorem u32OfInt_of_range (x : Int) (h0 : 0 ≤ x) (h1 : x < 4294967296) :
    (u32OfInt x : Int) = x := by
  unfold u32OfInt
  rw [Int.emod_eq_of_lt h0 h1]
  exact Int.toNat_of_nonneg h0

theorem parseBitset_ok (n : Nat) (b : List Nat) (h : b.length / 4 = n) :
    parseBitset n b = .ok (bitsetWords n b) := by
  simp [parseBitset, bitsetWords, h]

theorem parseLinkInfo_length (msgs : List Message) (lis : List LinkInfo)
    (h : parseLinkInfo msgs = .ok lis) : lis.length = msgs.length := by
  induction msgs generalizing lis with
  | nil =>
    simp only [parseLinkInfo] at h
    cases h
    rfl
  | cons m rest ih =>
    simp only [parseLinkInfo] at h
    cases hm : parseLinkInfoMsg m with
    | error e => rw [hm] at h; cases h
    | ok li =>
      rw [hm] at h
      cases hr : parseLinkInfo rest with
      | error e => rw [hr] at h; cases h
      | ok lis' =>
        rw [hr] at h
        cases h
        simp [ih lis' hr]

theorem parseLinkModes_length (table : List LinkModeEntry) (msgs : List Message)
    (lms : List LinkMode) (h : parseLinkModes table msgs = .ok lms) :
    lms.length = msgs.length := by
  induction msgs generalizing lms with
  | nil =>
    simp only [parseLinkModes] at h
    cases h
    rfl
  | cons m rest ih =>
    simp only [parseLinkModes] at h
    cases hm : parseLinkModeMsg table m with
    | error e => rw [hm] at h; cases h
    | ok lm =>
      rw [hm] at h
      cases hr : parseLinkModes table rest with
      | error e => rw [hr] at h; cases h
      | ok lms' =>
        rw [hr] at h
        cases h
        simp [ih lms' hr]

theorem parseWakeOnLAN_length (msgs : List Message) (wols : List WakeOnLAN)
    (h : parseWakeOnLAN msgs = .ok wols) : wols.length = msgs.length := by
  induction msgs generalizing wols with
  | nil =>
    simp only [parseWakeOnLAN] at h
    cases h
    rfl
  | cons m rest ih =>
    simp only [parseWakeOnLAN] at h
    cases hm : wolMsgLoop default m with
    | err e => rw [hm] at h; cases h
    | panicked s => rw [hm] at h; cases h
    | ok wol =>
      rw [hm] at h
      cases hr : parseWakeOnLAN rest with
      | err e => rw [hr] at h; cases h
      | panicked s => rw [hr] at h; cases h
      | ok wols' =>
        rw [hr] at h
        cases h
        simp [ih wols' hr]

theorem targeted_guard_false (r : Interface) (h : ¬(r.Index = 0 ∧ r.Name = "")) :
    ¬((0 : Nat) &&& netlinkDump = 0 ∧ r.Index = 0 ∧ r.Name = "") := by
  intro hc
  exact h hc.2

theorem clientGet_targeted_ok (transport : Transport) (header cmd : Nat) (r : Interface)
    (msgs : List Message) (h : ¬(r.Index = 0 ∧ r.Name = ""))
    (ht : transport (mkGetReq header cmd 0 r) = .ok msgs) :
    clientGet transport header cmd 0 r = .ok msgs := by
  rw [clientGet, if_neg (targeted_guard_false r h), ht]

theorem clientGet_targeted_error (transport : Transport) (header cmd : Nat) (r : Interface)
    (e : GoErr) (h : ¬(r.Index = 0 ∧ r.Name = ""))
    (ht : transport (mkGetReq header cmd 0 r) = .error e) :
    clientGet transport header cmd 0 r =
      .error (if errIs e EOPNOTSUPP ∨ errIs e ENODEV then .notExist else e) := by
  rw [clientGet, if_neg (targeted_guard_false r h), ht]

theorem filterMap_if {α β : Type} (p : α → Prop) [DecidablePred p] (f : α → β) (l : List α) :
    l.filterMap (fun a => if p a then some (f a) else none) =
      (l.filter (fun a => decide (p a))).map f := by
  induction l with
  | nil => rfl
  | cons a l ih =>
    by_cases h : p a <;> simp [h, ih]

theorem wordBits_eq (table : List LinkModeEntry) (i v : Nat) :
    wordBits table i v =
      ((List.range 32).filter (fun j => decide (v &&& (1 <<< j) ≠ 0))).map
        (fun j => resolveALM table (32 * i + j)) := by
  exact filterMap_if _ _ _

theorem wordBits_zero (table : List LinkModeEntry) (i : Nat) : wordBits table i 0 = [] := by
  simp [wordBits, Nat.zero_and]

theorem almLoop_eq_posLoop (table : List LinkModeEntry) :
    ∀ (vs : List Nat) (i : Nat), almLoop table i vs = (posLoop i vs).map (resolveALM table) := by
  intro vs
  induction vs with
  | nil => intro i; rfl
  | cons v tl ih =>
    intro i
    by_cases hv : v = 0
    · subst hv
      simp only [almLoop, posLoop, if_pos rfl, List.map_append, List.map_map, ih,
        List.nil_append]
      have : ((List.range 32).filter (fun j => decide ((0 : Nat) &&& (1 <<< j) ≠ 0))) = [] := by
        simp [Nat.zero_and]
      rw [this]
      simp
    · simp only [almLoop, posLoop, if_neg hv, List.map_append, List.map_map, ih,
        wordBits_eq]
      rfl

theorem almLoopNoSkip_eq (table : List LinkModeEntry) :
    ∀ (vs : List Nat) (i : Nat), almLoopNoSkip table i vs = almLoop table i vs := by
  intro vs
  induction vs with
  | nil => intro i; rfl
  | cons v tl ih =>
    intro i
    by_cases hv : v = 0
    · subst hv
      simp [almLoopNoSkip, almLoop, wordBits_zero, ih]
    · simp only [almLoopNoSkip, almLoop, if_neg hv, ih]

theorem posLoop_lb : ∀ (vs : List Nat) (i p : Nat), p ∈ posLoop i vs → 32 * i ≤ p := by
  intro vs
  induction vs with
  | nil => intro i p hp; cases hp
  | cons v tl ih =>
    intro i p hp
    simp only [posLoop, List.mem_append, List.mem_map, List.mem_filter,
      List.mem_range] at hp
    rcases hp with ⟨j, _, rfl⟩ | hp
    · omega
    · have := ih (i + 1) p hp
      omega

theorem posLoop_sorted : ∀ (vs : List Nat) (i : Nat), (posLoop i vs).Pairwise (· < ·) := by
  intro vs
  induction vs with
  | nil => intro i; exact List.Pairwise.nil
  | cons v tl ih =>
    intro i
    rw [posLoop, List.pairwise_append]
    refine ⟨?_, ih (i + 1), ?_⟩
    · rw [List.pairwise_map]
      have h := (List.pairwise_lt_range 32).filter
        (fun j => decide (v &&& (1 <<< j) ≠ 0))
      exact h.imp (by omega)
    · intro a ha b hb
      simp only [List.mem_map, List.mem_filter, List.mem_range] at ha
      rcases ha with ⟨j, ⟨hj, _⟩, rfl⟩
      have := posLoop_lb tl (i + 1) b hb
      omega

theorem dUint32_u32Bytes (n : Nat) (h : n < 4294967296) : dUint32 (u32Bytes n) = .ok n := by
  have hlen : (u32Bytes n).length = 4 := by simp [u32Bytes]
  rw [dUint32, if_pos hlen, leU32_u32Bytes n h]

theorem newBitset_svm (sz : Nat) (vb mb : List Nat) (hsz : sz < 4294967296)
    (hv : vb.length / 4 = (sz + 31) % 4294967296 / 32)
    (hm : mb.length / 4 = (sz + 31) % 4294967296 / 32) :
    newBitset [⟨ETHTOOL_A_BITSET_SIZE, u32Bytes sz⟩, ⟨ETHTOOL_A_BITSET_VALUE, vb⟩,
        ⟨ETHTOOL_A_BITSET_MASK, mb⟩] =
      .ok (List.zipWith (· &&& ·) (bitsetWords ((sz + 31) % 4294967296 / 32) vb)
        (bitsetWords ((sz + 31) % 4294967296 / 32) mb)) := by
  simp [newBitset, newBitsetLoop, bitsetStep, ETHTOOL_A_BITSET_NOMASK,
    ETHTOOL_A_BITSET_SIZE, ETHTOOL_A_BITSET_VALUE, ETHTOOL_A_BITSET_MASK,
    dUint32_u32Bytes sz hsz, parseBitset_ok _ _ hv, parseBitset_ok _ _ hm]

theorem newBitset_nomask_first (sz : Nat) (vb : List Nat) (hsz : sz < 4294967296)
    (hv : vb.length / 4 = (sz + 31) % 4294967296 / 32) :
    newBitset [⟨ETHTOOL_A_BITSET_NOMASK, []⟩, ⟨ETHTOOL_A_BITSET_SIZE, u32Bytes sz⟩,
        ⟨ETHTOOL_A_BITSET_VALUE, vb⟩] =
      .ok (bitsetWords ((sz + 31) % 4294967296 / 32) vb) := by
  simp [newBitset, newBitsetLoop, bitsetStep, ETHTOOL_A_BITSET_NOMASK,
    ETHTOOL_A_BITSET_SIZE, ETHTOOL_A_BITSET_VALUE, ETHTOOL_A_BITSET_MASK,
    dUint32_u32Bytes sz hsz, parseBitset_ok _ _ hv]

theorem newBitset_nomask_last (sz : Nat) (vb : List Nat) (hsz : sz < 4294967296)
    (hv : vb.length / 4 = (sz + 31) % 4294967296 / 32) :
    newBitset [⟨ETHTOOL_A_BITSET_SIZE, u32Bytes sz⟩, ⟨ETHTOOL_A_BITSET_VALUE, vb⟩,
        ⟨ETHTOOL_A_BITSET_NOMASK, []⟩] =
      .ok (bitsetWords ((sz + 31) % 4294967296 / 32) vb) := by
  simp [newBitset, newBitsetLoop, bitsetStep, ETHTOOL_A_BITSET_NOMASK,
    ETHTOOL_A_BITSET_SIZE, ETHTOOL_A_BITSET_VALUE, ETHTOOL_A_BITSET_MASK,
    dUint32_u32Bytes sz hsz, parseBitset_ok _ _ hv]

/-- C4 counterexample: the decoder does not allocate `ceil(SIZE/32)` words
for every compact bitset group.  At `SIZE = 2^32 - 1` the Go uint32 addition
`SIZE + 31` (part_003 line 303) wraps, so the decoder allocates 0 words —
not `ceil(SIZE/32) = 2^27` — and accepts an empty `VALUE`, returning zero
words, where the claimed `ceil` allocation would reject the empty payload
with the length-mismatch error. -/
theorem compact_bitset_ceil_counterexample :
    newBitset [⟨ETHTOOL_A_BITSET_SIZE, u32Bytes 4294967295⟩,
        ⟨ETHTOOL_A_BITSET_VALUE, ([] : List Nat)⟩] = .ok [] ∧
    (4294967295 + 31) / 32 = 134217728 ∧ (0 : Nat) ≠ 134217728 :=
  ⟨by rfl, by norm_num, by norm_num⟩

/-- C4 (amended): compact bitset decoding reads `SIZE` and allocates
`((SIZE+31) mod 2^32)/32` words — the addition is performed in Go uint32
arithmetic, so this equals `ceil(SIZE/32)` for every `SIZE ≤ 2^32-32` and is
0 for the 31 top values where the addition wraps — populates each word from
its 4-byte native-endian chunk of `VALUE` (and of `MASK`), and ANDs value
words with mask words before interpretation, unless the `NOMASK` flag
attribute is present (in either position relative to `SIZE`), in which case
the masking step is skipped entirely. -/
theorem compact_bitset_decode (sz : Nat) (vb mb : List Nat)
    (hsz : sz < 4294967296)
    (hv : vb.length / 4 = (sz + 31) % 4294967296 / 32)
    (hm : mb.length / 4 = (sz + 31) % 4294967296 / 32) :
    (sz ≤ 4294967264 → (sz + 31) % 4294967296 / 32 = (sz + 31) / 32) ∧
    newBitset [⟨ETHTOOL_A_BITSET_SIZE, u32Bytes sz⟩, ⟨ETHTOOL_A_BITSET_VALUE, vb⟩,
        ⟨ETHTOOL_A_BITSET_MASK, mb⟩] =
      .ok (List.zipWith (· &&& ·) (bitsetWords ((sz + 31) % 4294967296 / 32) vb)
        (bitsetWords ((sz + 31) % 4294967296 / 32) mb)) ∧
    newBitset [⟨ETHTOOL_A_BITSET_NOMASK, []⟩, ⟨ETHTOOL_A_BITSET_SIZE, u32Bytes sz⟩,
        ⟨ETHTOOL_A_BITSET_VALUE, vb⟩] =
      .ok (bitsetWords ((sz + 31) % 4294967296 / 32) vb) ∧
    newBitset [⟨ETHTOOL_A_BITSET_SIZE, u32Bytes sz⟩, ⟨ETHTOOL_A_BITSET_VALUE, vb⟩,
        ⟨ETHTOOL_A_BITSET_NOMASK, []⟩] =
      .ok (bitsetWords ((sz + 31) % 4294967296 / 32) vb) :=
  ⟨fun hle => by rw [Nat.mod_eq_of_lt (by omega)],
    newBitset_svm sz vb mb hsz hv hm, newBitset_nomask_first sz vb hsz hv,
    newBitset_nomask_last sz vb hsz hv⟩

/-- Witness for C4 at `SIZE = 64`, value words `[5, 9]`, mask words `[7, 8]`
(a size in the non-wrapping range, where the count is `ceil(64/32) = 2`). -/
theorem compact_bitset_decode_witness :
    ((64 : Nat) + 31) % 4294967296 / 32 = (64 + 31) / 32 ∧
    newBitset [⟨ETHTOOL_A_BITSET_SIZE, u32Bytes 64⟩,
        ⟨ETHTOOL_A_BITSET_VALUE, u32Bytes 5 ++ u32Bytes 9⟩,
        ⟨ETHTOOL_A_BITSET_MASK, u32Bytes 7 ++ u32Bytes 8⟩] =
      .ok (List.zipWith (· &&& ·)
        (bitsetWords ((64 + 31) % 4294967296 / 32) (u32Bytes 5 ++ u32Bytes 9))
        (bitsetWords ((64 + 31) % 4294967296 / 32) (u32Bytes 7 ++ u32Bytes 8))) ∧
    newBitset [⟨ETHTOOL_A_BITSET_NOMASK, []⟩, ⟨ETHTOOL_A_BITSET_SIZE, u32Bytes 64⟩,
        ⟨ETHTOOL_A_BITSET_VALUE, u32Bytes 5 ++ u32Bytes 9⟩] =
      .ok (bitsetWords ((64 + 31) % 4294967296 / 32) (u32Bytes 5 ++ u32Bytes 9)) ∧
    newBitset [⟨ETHTOOL_A_BITSET_SIZE, u32Bytes 64⟩,
        ⟨ETHTOOL_A_BITSET_VALUE, u32Bytes 5 ++ u32Bytes 9⟩,
        ⟨ETHTOOL_A_BITSET_NOMASK, []⟩] =
      .ok (bitsetWords ((64 + 31) % 4294967296 / 32) (u32Bytes 5 ++ u32Bytes 9)) :=
  ⟨(compact_bitset_decode 64 (u32Bytes 5 ++ u32Bytes 9) (u32Bytes 7 ++ u32Bytes 8)
      (by decide) (by decide) (by decide)).1 (by decide),
    (compact_bitset_decode 64 (u32Bytes 5 ++ u32Bytes 9) (u32Bytes 7 ++ u32Bytes 8)
      (by decide) (by decide) (by decide)).2⟩

/-- C5: a set bit `j` of word `i` resolves to static table entry `32*i + j`
(the decode equals mapping the table-resolution over the ascending set-bit
positions), the emitted `AdvertisedLinkMode` indices are strictly ascending
(given the dense table the decode assumes), and skipping all-zero words never
changes the decoded result. -/
theorem bit_resolution_ascending (table : List LinkModeEntry) (values : List Nat)
    (hdense : ∀ p ∈ posLoop 0 values, (table.getD p default).bit = p) :
    almLoop table 0 values = (posLoop 0 values).map (resolveALM table) ∧
    ((almLoop table 0 values).map AdvertisedLinkMode.Index).Pairwise (· < ·) ∧
    almLoopNoSkip table 0 values = almLoop table 0 values := by
  refine ⟨almLoop_eq_posLoop table values 0, ?_, almLoopNoSkip_eq table values 0⟩
  rw [almLoop_eq_posLoop table values 0, List.map_map, List.pairwise_map]
  refine (posLoop_sorted values 0).imp_of_mem ?_
  intro a b ha hb hab
  simp only [Function.comp, resolveALM, hdense a ha, hdense b hb]
  exact_mod_cast hab

/-- Witness for C5: a dense 64-entry table and the words `[5, 9]`
(set bits 0, 2, 32, 35). -/
theorem bit_resolution_ascending_witness :
    almLoop ((List.range 64).map (fun k => (⟨k, ""⟩ : LinkModeEntry))) 0 [5, 9] =
      (posLoop 0 [5, 9]).map
        (resolveALM ((List.range 64).map (fun k => (⟨k, ""⟩ : LinkModeEntry)))) ∧
    ((almLoop ((List.range 64).map (fun k => (⟨k, ""⟩ : LinkModeEntry))) 0 [5, 9]).map
        AdvertisedLinkMode.Index).Pairwise (· < ·) ∧
    almLoopNoSkip ((List.range 64).map (fun k => (⟨k, ""⟩ : LinkModeEntry))) 0 [5, 9] =
      almLoop ((List.range 64).map (fun k => (⟨k, ""⟩ : LinkModeEntry))) 0 [5, 9] :=
  bit_resolution_ascending _ [5, 9] (by decide)

/-- C8: the Wake-on-LAN modes decoder assumes at most 32 named flags: when the
decoded bitset holds more than one 32-bit word it fails with the fatal
`panicf` contract-breach (never a returned error), and with exactly one word
it stores that word as the `WOLMode` bitmask. -/
theorem wol_modes_word_limit (attrs : List LeafAttr) (values : List Nat)
    (h : newBitset attrs = .ok values) :
    (values.length > 1 →
      parseWakeOnLANModes attrs = .panicked (tooManyWolWordsMsg values.length)) ∧
    (∀ v, values = [v] → parseWakeOnLANModes attrs = .ok v) := by
  constructor
  · intro hl
    simp only [parseWakeOnLANModes, h]
    rw [if_pos hl]
  · rintro v rfl
    simp [parseWakeOnLANModes, h]

/-- Witness for C8: a two-word bitset panics, a one-word bitset yields the
word. -/
theorem wol_modes_word_limit_witness :
    parseWakeOnLANModes [⟨ETHTOOL_A_BITSET_SIZE, u32Bytes 64⟩,
        ⟨ETHTOOL_A_BITSET_VALUE, u32Bytes 5 ++ u32Bytes 9⟩,
        ⟨ETHTOOL_A_BITSET_MASK, u32Bytes 7 ++ u32Bytes 8⟩] =
      .panicked (tooManyWolWordsMsg 2) ∧
    parseWakeOnLANModes [⟨ETHTOOL_A_BITSET_SIZE, u32Bytes 8⟩,
        ⟨ETHTOOL_A_BITSET_VALUE, u32Bytes 37⟩,
        ⟨ETHTOOL_A_BITSET_MASK, u32Bytes 37⟩] = .ok 37 :=
  ⟨(wol_modes_word_limit _ [5, 8] (by rfl)).1 (by decide),
    (wol_modes_word_limit _ [37] (by rfl)).2 37 rfl⟩

/-- C10: a Wake-on-LAN modes bitset that decodes to zero words makes the
decoder index `values[0]` out of range — an out-of-range runtime fault, not a
returned decode error — and the decoder's ordinary error return is reachable
exactly from a failure of the underlying bitset parse. -/
theorem wol_modes_empty_bitset :
    (∀ attrs : List LeafAttr, newBitset attrs = .ok [] →
      parseWakeOnLANModes attrs = .panicked indexOutOfRangeMsg) ∧
    (∀ (attrs : List LeafAttr) (e : String),
      parseWakeOnLANModes attrs = .err e ↔ newBitset attrs = .error e) := by
  constructor
  · intro attrs h
    simp [parseWakeOnLANModes, h]
  · intro attrs e
    constructor
    · intro h
      cases hnb : newBitset attrs with
      | error e' =>
        simp only [parseWakeOnLANModes, hnb] at h
        injection h with he
        rw [he]
      | ok values =>
        simp only [parseWakeOnLANModes, hnb] at h
        by_cases hl : values.length > 1
        · rw [if_pos hl] at h
          simp at h
        · rw [if_neg hl] at h
          cases values with
          | nil => simp at h
          | cons v vs => simp at h
    · intro h
      simp [parseWakeOnLANModes, h]

/-- Witness for C10: `SIZE = 0` decodes to zero words and faults. -/
theorem wol_modes_empty_bitset_witness :
    parseWakeOnLANModes [⟨ETHTOOL_A_BITSET_SIZE, u32Bytes 0⟩] =
      .panicked indexOutOfRangeMsg :=
  wol_modes_empty_bitset.1 [⟨ETHTOOL_A_BITSET_SIZE, u32Bytes 0⟩] (by rfl)

theorem parseWolModes_encode (wol : WakeOnLAN) :
    parseWakeOnLANModes (wolEncodeModes wol) = .ok (u32OfInt wol.Modes) := by
  have hlen : (u32Bytes (u32OfInt wol.Modes)).length / 4 = (8 + 31) % 4294967296 / 32 := by
    simp [u32Bytes]
  have h := newBitset_svm 8 (u32Bytes (u32OfInt wol.Modes)) (u32Bytes (u32OfInt wol.Modes))
    (by norm_num) hlen hlen
  have hw : bitsetWords ((8 + 31) % 4294967296 / 32) (u32Bytes (u32OfInt wol.Modes)) =
      [u32OfInt wol.Modes] := by
    have htake : (u32Bytes (u32OfInt wol.Modes)).take 4 = u32Bytes (u32OfInt wol.Modes) := by
      simp [u32Bytes]
    simp only [bitsetWords, show (8 + 31) % 4294967296 / 32 = 1 from rfl,
      show List.range 1 = [0] from rfl, List.map_cons, List.map_nil,
      Nat.mul_zero, List.drop_zero]
    rw [htake, leU32_u32Bytes _ (u32OfInt_lt _)]
  rw [hw] at h
  simp only [wolEncodeModes, parseWakeOnLANModes, h]
  simp [Nat.and_self]

theorem parseWakeOnLAN_wolEncode (wol : WakeOnLAN) :
    parseWakeOnLAN [wolEncode wol] =
      .ok [⟨⟨0, ""⟩, (u32OfInt wol.Modes : Int)⟩] := by
  have hmodes := parseWolModes_encode wol
  simp [parseWakeOnLAN, wolEncode, wolMsgLoop, hmodes,
    ETHTOOL_A_WOL_HEADER, ETHTOOL_A_WOL_MODES]
  rfl

/-- C7 counterexample: the encode→decode fixed point fails, as stated for
every record, at `Modes = 2^32`: the encoder writes `uint32(wol.Modes)`, so
decoding returns 0, not the original bitmask. -/
theorem wol_roundtrip_counterexample :
    parseWakeOnLAN [wolEncode ⟨⟨0, ""⟩, 4294967296⟩] = .ok [⟨⟨0, ""⟩, 0⟩] ∧
    (0 : Int) ≠ (4294967296 : Int) := by
  constructor
  · rw [parseWakeOnLAN_wolEncode]
    have : u32OfInt 4294967296 = 0 := by decide
    rw [this]
    rfl
  · decide

/-- C7 (amended): for every `WakeOnLAN` whose `Modes` bitmask fits the 32-bit
wire word (`0 ≤ Modes < 2^32` — which covers all named Wake-on-LAN modes),
decoding a response whose modes attribute was produced by the encoder yields
the original `Modes`; for wider values the `uint32` conversion in the encoder
truncates, so the fixed point holds exactly on the 32-bit range. -/
theorem wol_roundtrip (wol : WakeOnLAN) (h0 : 0 ≤ wol.Modes)
    (h1 : wol.Modes < 4294967296) :
    ∃ w : WakeOnLAN, parseWakeOnLAN [wolEncode wol] = .ok [w] ∧ w.Modes = wol.Modes :=
  ⟨⟨⟨0, ""⟩, (u32OfInt wol.Modes : Int)⟩, parseWakeOnLAN_wolEncode wol,
    u32OfInt_of_range wol.Modes h0 h1⟩

/-- Witness for C7 at `Modes = 37`. -/
theorem wol_roundtrip_witness :
    ∃ w : WakeOnLAN, parseWakeOnLAN [wolEncode ⟨⟨1, "eth0"⟩, 37⟩] = .ok [w] ∧
      w.Modes = (37 : Int) :=
  wol_roundtrip ⟨⟨1, "eth0"⟩, 37⟩ (by decide) (by decide)

/-- C9 counterexample: the Wake-on-LAN modes group is not the fixed 12-byte
`VALUE`/`SELECTOR`/padding bitfield: the encoder emits three attributes
(`SIZE`, `VALUE`, `MASK`) — `SIZE` negotiation included — whose serialized
body is 24 bytes, not 12. -/
theorem wol_fixed_bitfield_counterexample :
    serializedLength (wolEncodeModes ⟨⟨1, "eth0"⟩, 5⟩) = 24 ∧ (24 : Nat) ≠ 12 ∧
    (wolEncodeModes ⟨⟨1, "eth0"⟩, 5⟩).map LeafAttr.tag =
      [ETHTOOL_A_BITSET_SIZE, ETHTOOL_A_BITSET_VALUE, ETHTOOL_A_BITSET_MASK] := by
  refine ⟨by decide, by decide, by decide⟩

/-- C9 (amended): the Wake-on-LAN modes bitset is carried in the *compact*
nested bitset form in both directions: the encoder writes a `SIZE` of 8 plus
one 4-byte native-endian `VALUE` word and an identical `MASK` word, and the
response decoder parses that group with the compact bitset decoder (the fixed
12-byte `NLA_BITFIELD32` of `parseBitfield32` appears only in the part_004
revision's link-modes decoder). -/
theorem wol_modes_compact_form (wol : WakeOnLAN) :
    wolEncodeModes wol = [⟨ETHTOOL_A_BITSET_SIZE, u32Bytes 8⟩,
      ⟨ETHTOOL_A_BITSET_VALUE, u32Bytes (u32OfInt wol.Modes)⟩,
      ⟨ETHTOOL_A_BITSET_MASK, u32Bytes (u32OfInt wol.Modes)⟩] ∧
    parseWakeOnLANModes (wolEncodeModes wol) = .ok (u32OfInt wol.Modes) :=
  ⟨rfl, parseWolModes_encode wol⟩

/-- C1: for every targeted single-interface query (LinkInfo, LinkMode,
WakeOnLAN) whose transport round trip succeeds with `n` decodable response
messages, the operation returns the single decoded record when `n = 1` and
panics (the fatal contract-breach path, not an error value) when `n = 0` or
`n > 1`. -/
theorem targeted_cardinality :
    (∀ (transport : Transport) (r : Interface) (msgs : List Message) (lis : List LinkInfo),
      ¬(r.Index = 0 ∧ r.Name = "") →
      transport (mkGetReq ETHTOOL_A_LINKINFO_HEADER ETHTOOL_MSG_LINKINFO_GET 0 r) = .ok msgs →
      parseLinkInfo msgs = .ok lis →
      (msgs.length = 1 → ∃ li, lis = [li] ∧ LinkInfoOp transport r = .ok li) ∧
      (msgs.length ≠ 1 →
        LinkInfoOp transport r = .panicked (cardinalityMsg "LinkInfo" r msgs.length))) ∧
    (∀ (table : List LinkModeEntry) (transport : Transport) (r : Interface)
      (msgs : List Message) (lms : List LinkMode),
      ¬(r.Index = 0 ∧ r.Name = "") →
      transport (mkGetReq ETHTOOL_A_LINKMODES_HEADER ETHTOOL_MSG_LINKMODES_GET 0 r) =
        .ok msgs →
      parseLinkModes table msgs = .ok lms →
      (msgs.length = 1 → ∃ lm, lms = [lm] ∧ LinkModeOp table transport r = .ok lm) ∧
      (msgs.length ≠ 1 →
        LinkModeOp table transport r = .panicked (cardinalityMsg "LinkMode" r msgs.length))) ∧
    (∀ (transport : Transport) (r : Interface) (msgs : List Message) (wols : List WakeOnLAN),
      ¬(r.Index = 0 ∧ r.Name = "") →
      transport (mkGetReq ETHTOOL_A_WOL_HEADER ETHTOOL_MSG_WOL_GET 0 r) = .ok msgs →
      parseWakeOnLAN msgs = .ok wols →
      (msgs.length = 1 → ∃ w, wols = [w] ∧ WakeOnLANOp transport r = .ok w) ∧
      (msgs.length ≠ 1 →
        WakeOnLANOp transport r = .panicked (cardinalityMsg "WakeOnLAN" r msgs.length))) := by
  refine ⟨?_, ?_, ?_⟩
  · intro transport r msgs lis hr ht hp
    have hget := clientGet_targeted_ok transport _ _ r msgs hr ht
    have hshared : linkInfoShared transport 0 r = .ok lis := by
      simp only [linkInfoShared, hget, hp]
    have hlen := parseLinkInfo_length msgs lis hp
    constructor
    · intro h1
      obtain ⟨li, rfl⟩ := List.length_eq_one.mp (by omega : lis.length = 1)
      refine ⟨li, rfl, ?_⟩
      simp [LinkInfoOp, hshared]
    · intro h1
      simp only [LinkInfoOp, hshared]
      rw [if_pos (by omega : lis.length ≠ 1), hlen]
  · intro table transport r msgs lms hr ht hp
    have hget := clientGet_targeted_ok transport _ _ r msgs hr ht
    have hshared : linkModeShared table transport 0 r = .ok lms := by
      simp only [linkModeShared, hget, hp]
    have hlen := parseLinkModes_length table msgs lms hp
    constructor
    · intro h1
      obtain ⟨lm, rfl⟩ := List.length_eq_one.mp (by omega : lms.length = 1)
      refine ⟨lm, rfl, ?_⟩
      simp [LinkModeOp, hshared]
    · intro h1
      simp only [LinkModeOp, hshared]
      rw [if_pos (by omega : lms.length ≠ 1), hlen]
  · intro transport r msgs wols hr ht hp
    have hget := clientGet_targeted_ok transport _ _ r msgs hr ht
    have hshared : wakeOnLANShared transport 0 r = .ok wols := by
      simp only [wakeOnLANShared, hget, hp]
    have hlen := parseWakeOnLAN_length msgs wols hp
    constructor
    · intro h1
      obtain ⟨w, rfl⟩ := List.length_eq_one.mp (by omega : wols.length = 1)
      refine ⟨w, rfl, ?_⟩
      simp [WakeOnLANOp, hshared]
    · intro h1
      simp only [WakeOnLANOp, hshared]
      rw [if_pos (by omega : wols.length ≠ 1), hlen]

/-- Witness for C1: a one-message stub returns the decoded record, a
two-message stub panics, exercised on the LinkInfo operation. -/
theorem targeted_cardinality_witness :
    (∃ li, [(default : LinkInfo)] = [li] ∧
      LinkInfoOp (fun _ => .ok [[]]) ⟨1, ""⟩ = .ok li) ∧
    LinkInfoOp (fun _ => .ok [[], []]) ⟨1, ""⟩ =
      .panicked (cardinalityMsg "LinkInfo" ⟨1, ""⟩ 2) :=
  ⟨(targeted_cardinality.1 (fun _ => .ok [[]]) ⟨1, ""⟩ [[]] [default]
      (by simp) rfl rfl).1 rfl,
    (targeted_cardinality.1 (fun _ => .ok [[], []]) ⟨1, ""⟩ [[], []] [default, default]
      (by simp) rfl rfl).2 (by decide)⟩

/-- C2: a targeted (non-dump) request with the empty selector fails with
`errBadRequest` for every possible transport — hence before any transport
call — while the dump operations accept the empty selector and perform the
round trip. -/
theorem empty_selector_dispatch :
    (∀ (transport : Transport) (header cmd flags : Nat), flags &&& netlinkDump = 0 →
      clientGet transport header cmd flags ⟨0, ""⟩ = .error .badRequest) ∧
    (∀ (transport : Transport) (msgs : List Message) (lis : List LinkInfo),
      transport (mkGetReq ETHTOOL_A_LINKINFO_HEADER ETHTOOL_MSG_LINKINFO_GET netlinkDump
        ⟨0, ""⟩) = .ok msgs →
      parseLinkInfo msgs = .ok lis → LinkInfosOp transport = .ok lis) ∧
    (∀ (table : List LinkModeEntry) (transport : Transport) (msgs : List Message)
      (lms : List LinkMode),
      transport (mkGetReq ETHTOOL_A_LINKMODES_HEADER ETHTOOL_MSG_LINKMODES_GET netlinkDump
        ⟨0, ""⟩) = .ok msgs →
      parseLinkModes table msgs = .ok lms → LinkModesOp table transport = .ok lms) ∧
    (∀ (transport : Transport) (msgs : List Message) (wols : List WakeOnLAN),
      transport (mkGetReq ETHTOOL_A_WOL_HEADER ETHTOOL_MSG_WOL_GET netlinkDump
        ⟨0, ""⟩) = .ok msgs →
      parseWakeOnLAN msgs = .ok wols → WakeOnLANsOp transport = .ok wols) := by
  refine ⟨?_, ?_, ?_, ?_⟩
  · intro transport header cmd flags hflags
    rw [clientGet, if_pos ⟨hflags, rfl, rfl⟩]
  · intro transport msgs lis ht hp
    simp only [LinkInfosOp, linkInfoShared, clientGet]
    rw [if_neg (by decide), ht]
    simp [hp]
  · intro table transport msgs lms ht hp
    simp only [LinkModesOp, linkModeShared, clientGet]
    rw [if_neg (by decide), ht]
    simp [hp]
  · intro transport msgs wols ht hp
    simp only [WakeOnLANsOp, wakeOnLANShared, clientGet]
    rw [if_neg (by decide), ht]
    simp [hp]

/-- Witness for C2: the empty selector is rejected client-side for a targeted
call and accepted for a dump against a stub transport. -/
theorem empty_selector_dispatch_witness :
    clientGet (fun _ => .ok []) ETHTOOL_A_LINKINFO_HEADER ETHTOOL_MSG_LINKINFO_GET 0
      ⟨0, ""⟩ = .error .badRequest ∧
    LinkInfosOp (fun _ => .ok []) = .ok [] :=
  ⟨empty_selector_dispatch.1 (fun _ => .ok []) _ _ 0 (by decide),
    empty_selector_dispatch.2.1 (fun _ => .ok []) [] [] rfl rfl⟩

/-- C3: kernel errors from a failed round trip are classified: `EOPNOTSUPP`
and `ENODEV` become the Not-Found sentinel, `EPERM` on a Wake-on-LAN read
becomes the Permission-Denied sentinel, and every other errno is passed back
unchanged. -/
theorem kernel_error_classification :
    (∀ (transport : Transport) (header cmd flags : Nat) (r : Interface) (n : Nat),
      ¬(flags &&& netlinkDump = 0 ∧ r.Index = 0 ∧ r.Name = "") →
      transport (mkGetReq header cmd flags r) = .error (.errno n) →
      clientGet transport header cmd flags r =
        .error (if n = EOPNOTSUPP ∨ n = ENODEV then .notExist else .errno n)) ∧
    (∀ (transport : Transport) (r : Interface) (n : Nat),
      ¬(r.Index = 0 ∧ r.Name = "") →
      transport (mkGetReq ETHTOOL_A_WOL_HEADER ETHTOOL_MSG_WOL_GET 0 r) =
        .error (.errno n) →
      WakeOnLANOp transport r =
        .err (if n = EOPNOTSUPP ∨ n = ENODEV then .notExist
          else if n = EPERM then .permission else .errno n)) := by
  constructor
  · intro transport header cmd flags r n hguard ht
    rw [clientGet, if_neg hguard, ht]
    by_cases h1 : n = EOPNOTSUPP ∨ n = ENODEV <;>
      simp [errIs, EOPNOTSUPP, ENODEV, h1]
  · intro transport r n hr ht
    have hget := clientGet_targeted_error transport _ _ r _ hr ht
    have hcl : clientGet transport ETHTOOL_A_WOL_HEADER ETHTOOL_MSG_WOL_GET 0 r =
        .error (if n = 95 ∨ n = 19 then .notExist else .errno n) := by
      rw [hget]
      by_cases h1 : n = 95 ∨ n = 19 <;> simp [errIs, EOPNOTSUPP, ENODEV, h1]
    simp only [WakeOnLANOp, wakeOnLANShared, hcl, EOPNOTSUPP, ENODEV, EPERM]
    by_cases h1 : n = 95 ∨ n = 19
    · rw [if_pos h1, if_pos h1]
      simp [errIs]
    · rw [if_neg h1, if_neg h1]
      simp [errIs]

/-- Witness for C3 at the four representative errnos 95, 19, 1 and 7. -/
theorem kernel_error_classification_witness :
    clientGet (fun _ => .error (.errno 95)) 1 2 0 ⟨1, ""⟩ = .error .notExist ∧
    clientGet (fun _ => .error (.errno 19)) 1 2 0 ⟨1, ""⟩ = .error .notExist ∧
    clientGet (fun _ => .error (.errno 7)) 1 2 0 ⟨1, ""⟩ = .error (.errno 7) ∧
    WakeOnLANOp (fun _ => .error (.errno 1)) ⟨1, ""⟩ = .err .permission ∧
    WakeOnLANOp (fun _ => .error (.errno 7)) ⟨1, ""⟩ = .err (.errno 7) :=
  ⟨kernel_error_classification.1 (fun _ => .error (.errno 95)) 1 2 0 ⟨1, ""⟩ 95
      (by simp) rfl,
    kernel_error_classification.1 (fun _ => .error (.errno 19)) 1 2 0 ⟨1, ""⟩ 19
      (by simp) rfl,
    kernel_error_classification.1 (fun _ => .error (.errno 7)) 1 2 0 ⟨1, ""⟩ 7
      (by simp) rfl,
    kernel_error_classification.2 (fun _ => .error (.errno 1)) ⟨1, ""⟩ 1
      (by simp) rfl,
    kernel_error_classification.2 (fun _ => .error (.errno 7)) ⟨1, ""⟩ 7
      (by simp) rfl⟩

/-- C6: every read request consists of a single nested header attribute group
holding the device-index attribute iff `Index > 0`, the device-name attribute
iff `Name` is non-empty, and — unconditionally — the compact-bitsets flags
scalar. -/
theorem request_header_shape (header cmd flags : Nat) (r : Interface) :
    (mkGetReq header cmd flags r).attrs = [⟨header, TopPayload.nested (headerLeaves r)⟩] ∧
    ((∃ a ∈ headerLeaves r, a.tag = ETHTOOL_A_HEADER_DEV_INDEX) ↔ r.Index > 0) ∧
    ((∃ a ∈ headerLeaves r, a.tag = ETHTOOL_A_HEADER_DEV_NAME) ↔ r.Name ≠ "") ∧
    (⟨ETHTOOL_A_HEADER_FLAGS, u32Bytes ETHTOOL_FLAG_COMPACT_BITSETS⟩ : LeafAttr) ∈
      headerLeaves r := by
  refine ⟨rfl, ?_, ?_, ?_⟩ <;>
    by_cases hi : r.Index > 0 <;> by_cases hn : r.Name = "" <;>
      simp [headerLeaves, hi, hn, ETHTOOL_A_HEADER_DEV_INDEX, ETHTOOL_A_HEADER_DEV_NAME,
        ETHTOOL_A_HEADER_FLAGS]

end Ethtool
